import Mathlib

/-!
Shallow embedding of the scoring, normalization and orchestration core of
the `playwright-auditor` repository (files `src/utils/scoring.js`,
`src/index.js`, `src/utils/helpers.ts`), together with theorems checking
the specification's claims about it.

JavaScript numbers are modelled with `Nat`/`Int`/`ℚ`; `Math.round` is
`jsRound` below (floor of `q + 1/2`, which matches JS rounding of
half-up toward positive infinity). Optional / possibly-missing JS fields
are modelled with `Option`. Asynchronous IO (dynamic `import`, `fs.stat`)
is abstracted into explicit parameters: a `stat` result for the target
directory and an environment assigning each registry entry the observable
behavior of its analyzer module.
-/

namespace PwAudit

/-- JS `Math.round q` for a rational `q`: floor of `q + 1/2`. -/
def jsRound (q : ℚ) : ℤ := ⌊q + 1/2⌋

/-- The severity-weight table `WEIGHT` of `src/utils/scoring.js`;
`none` models a key miss on the JS object. -/
def WEIGHT (s : String) : Option Nat :=
  if s = "info" then some 1
  else if s = "low" then some 2
  else if s = "medium" then some 4
  else if s = "high" then some 8
  else if s = "critical" then some 12
  else none

/-- A finding as seen by `computeCategoryScore`: only `severity` and
`status` are read, each possibly absent (`f?.severity`, `f?.status`). -/
structure SFinding where
  severity : Option String
  status : Option String
deriving DecidableEq

/-- The record `{ score, maxPoints, earnedPoints }` that
`computeCategoryScore` returns. -/
structure CategoryScore where
  score : Int
  maxPoints : Nat
  earnedPoints : Nat
deriving DecidableEq

/-- The weight a single finding contributes:
`WEIGHT[f?.severity ?? 'low'] ?? WEIGHT.low`. -/
def findingWeight (f : SFinding) : Nat :=
  (WEIGHT (f.severity.getD "low")).getD 2

/-- One iteration of the accumulation loop of `computeCategoryScore`:
adds the weight to `maxPoints`, and to `earnedPoints` iff
`f?.status === 'pass'`. -/
def scoreStep (acc : Nat × Nat) (f : SFinding) : Nat × Nat :=
  let w := findingWeight f
  (acc.1 + w, if f.status = some "pass" then acc.2 + w else acc.2)

/-- Function `computeCategoryScore` of `src/utils/scoring.js`. -/
def computeCategoryScore (findings : List SFinding) : CategoryScore :=
  if findings.isEmpty then ⟨100, 0, 0⟩
  else
    let mp := findings.foldl scoreStep (0, 0)
    let score : Int :=
      if 0 < mp.1 then jsRound ((mp.2 : ℚ) / (mp.1 : ℚ) * 100) else 100
    ⟨score, mp.1, mp.2⟩

/-- Input shape of `computeOverallScore`: `{ score, _maxPoints }`. -/
structure SCat where
  score : Int
  maxPts : Int
deriving DecidableEq

/-- One iteration of the weighted-accumulation loop of
`computeOverallScore`: with `w = Math.max(0, c._maxPoints ?? 0)`, entries
with `w > 0` contribute `score * w` to `weighted` and `w` to
`totalWeight`. -/
def overallStep (acc : Int × Int) (c : SCat) : Int × Int :=
  let w := max 0 c.maxPts
  if 0 < w then (acc.1 + c.score * w, acc.2 + w) else acc

/-- Function `computeOverallScore` of `src/utils/scoring.js`: weighted average of
category scores by `_maxPoints`, falling back to the plain mean
(`Math.round(mean || 0)`) when no weights are available, and to `100` on
an empty list. -/
def computeOverallScore (categories : List SCat) : Int :=
  if categories.isEmpty then 100
  else
    let acc := categories.foldl overallStep (0, 0)
    if 0 < acc.2 then jsRound ((acc.1 : ℚ) / (acc.2 : ℚ))
    else
      let mean : ℚ := ((categories.foldl (fun s c => s + c.score) 0 : Int) : ℚ) / (categories.length : ℚ)
      jsRound (if mean = 0 then 0 else mean)

/-! ## Normalization and the orchestrator (`src/index.js`) -/

/-- Function `toSev` of `src/index.js`: `String(x || '').toLowerCase()` matched
against the five known severities, anything else coerced to `'low'`.
`none` models a missing/undefined field (falsy, like the empty string). -/
def toSev (x : Option String) : String :=
  match (x.getD "").toLower with
  | "info" => "info"
  | "low" => "low"
  | "medium" => "medium"
  | "high" => "high"
  | "critical" => "critical"
  | _ => "low"

/-- JS `x || d` on a possibly-missing string: missing and the empty
string are falsy and fall back to `d`. -/
def jsOrStr (x : Option String) (d : String) : String :=
  match x with
  | some s => if s = "" then d else s
  | none => d

/-- JS `x ? String(x) : undefined` on a possibly-missing string: the
empty string is falsy and becomes `undefined`. -/
def jsTruthyOpt (x : Option String) : Option String :=
  match x with
  | some s => if s = "" then none else some s
  | none => none

/-- A raw finding as emitted by an analyzer, before normalization; every
field may be absent. -/
structure RawFinding where
  id : Option String := none
  title : Option String := none
  message : Option String := none
  suggestion : Option String := none
  severity : Option String := none
  status : Option String := none
  file : Option String := none
  artifacts : Option (List String) := none
deriving DecidableEq

/-- A normalized finding (the `Finding` shape of `src/index.js`). -/
structure Finding where
  id : String
  title : String
  message : String
  suggestion : Option String := none
  severity : String
  status : String
  file : Option String := none
  artifacts : Option (List String) := none
deriving DecidableEq

/-- The per-finding body of `normalizeCategory`'s `findings.map`:
`id = String(f.id ?? f.title ?? 'check')`, `title = String(f.title ?? 'Check')`,
`message = f.message ? String(f.message) : ''`, truthy-guarded
`suggestion`/`file`, `severity = toSev(f.severity)`, and the fail-closed
`status`. -/
def normalizeFinding (f : RawFinding) : Finding :=
  { id := (f.id.orElse (fun _ => f.title)).getD "check"
    title := f.title.getD "Check"
    message := f.message.getD ""
    suggestion := jsTruthyOpt f.suggestion
    severity := toSev f.severity
    status :=
      match f.status with
      | some s => if s = "pass" ∨ s = "fail" then s else "fail"
      | none => "fail"
    file := jsTruthyOpt f.file
    artifacts := f.artifacts }

/-- The raw output of an analyzer function (`CategoryLike`): `id` and
`title` optional, `findings` possibly not an array (modelled `none`). -/
structure RawCategory where
  id : Option String := none
  title : Option String := none
  findings : Option (List RawFinding) := none
deriving DecidableEq

/-- One entry of the `ANALYZERS` registry of `src/index.js`. -/
structure AnalyzerEntry where
  id : String
  title : String
  stem : String
  fnName : String
deriving DecidableEq

/-- A normalized category: identity plus normalized findings. -/
structure Category where
  id : String
  title : String
  findings : List Finding
deriving DecidableEq

/-- Function `normalizeCategory` of `src/index.js`: `null` for falsy output,
otherwise `id = out.id || entry.id`, `title = out.title || entry.title`,
and the array-guarded, mapped findings. -/
def normalizeCategory (entry : AnalyzerEntry) (out : Option RawCategory) : Option Category :=
  match out with
  | none => none
  | some o =>
      some
        { id := jsOrStr o.id entry.id
          title := jsOrStr o.title entry.title
          findings := (o.findings.getD []).map normalizeFinding }

/-- The observable behavior of one analyzer module when `runAnalyzer`
resolves and invokes it. The dynamic `import`, `fs.stat` probing and the
`await` of the analyzer promise are IO; their four possible outcomes are
abstracted here. A synchronous `throw` and an asynchronous rejection both
surface as the caught exception of the `await`, so both are `throws`. -/
inductive AnalyzerBehavior where
  /-- no candidate file loads: `mod = null`, with the tried paths and
  collected error strings. -/
  | loadMiss (tried : List String) (errors : List String)
  /-- the module loads but exports no callable. -/
  | noFn
  /-- the analyzer function throws / rejects with message `msg`. -/
  | throws (msg : String)
  /-- the analyzer function resolves with `out` (`none` = a falsy
  value such as `undefined`). -/
  | returns (out : Option RawCategory)
deriving DecidableEq

/-- The `{ cat?, loadIssue? }` record returned by `runAnalyzer`. -/
structure RunOutcome where
  cat : Option Category
  loadIssue : Option Finding
deriving DecidableEq

/-- The message of a module-not-found load issue, as built in
`runAnalyzer`. -/
def loadMissMessage (entry : AnalyzerEntry) (tried errors : List String) : String :=
  let msg := "Module not found for analyzer \"" ++ entry.title ++ "\" (stem=\""
    ++ entry.stem ++ "\"). Tried:\n"
    ++ String.intercalate "\n" (tried.map (fun p => "• " ++ p))
  let hint :=
    if errors.isEmpty then ""
    else "\nErrors:\n" ++ String.intercalate "\n" (errors.map (fun e => "- " ++ e))
  msg ++ hint

/-- Function `runAnalyzer` of `src/index.js`, as a function of the entry and the
abstracted behavior of its module. -/
def runAnalyzer (entry : AnalyzerEntry) (behavior : AnalyzerBehavior) : RunOutcome :=
  match behavior with
  | .loadMiss tried errors =>
      { cat := none
        loadIssue := some
          { id := "load-" ++ entry.id
            title := "Analyzer not loaded: " ++ entry.title
            message := loadMissMessage entry tried errors
            severity := "high"
            status := "fail" } }
  | .noFn =>
      { cat := none
        loadIssue := some
          { id := "no-fn-" ++ entry.id
            title := "Analyzer export missing: " ++ entry.title
            message := "Module loaded but export \"" ++ entry.fnName ++ "\" not found."
            severity := "high"
            status := "fail" } }
  | .throws msg =>
      { cat := some
          { id := entry.id
            title := entry.title
            findings :=
              [{ id := "analyzer-error"
                 title := "Analyzer failed"
                 message := msg
                 severity := "high"
                 status := "fail" }] }
        loadIssue := none }
  | .returns out => { cat := normalizeCategory entry out, loadIssue := none }

/-- View a normalized finding through the eyes of `computeCategoryScore`
(which reads just `severity` and `status`, both present here). -/
def Finding.toSFinding (f : Finding) : SFinding :=
  ⟨some f.severity, some f.status⟩

/-- A category after the scoring pass of `runAudit` set `c.score` and
`c._maxPoints`. -/
structure ScoredCategory where
  id : String
  title : String
  findings : List Finding
  score : Int
  maxPts : Nat
deriving DecidableEq

/-- The scoring pass of `runAudit`:
`const { score, maxPoints } = computeCategoryScore(c.findings || [])`. -/
def scoreCategory (c : Category) : ScoredCategory :=
  let r := computeCategoryScore (c.findings.map Finding.toSFinding)
  { id := c.id, title := c.title, findings := c.findings
    score := r.score, maxPts := r.maxPoints }

/-- The aggregate result of a run (IO-only fields `timestamp` and the
report files are omitted; `targetDir` is kept unresolved since
`path.resolve` depends on the process working directory). -/
structure AuditResult where
  targetDir : String
  categories : List ScoredCategory
  overallScore : Int
deriving DecidableEq

/-- Result of `fs.stat` on the target: `none` when the path does not
exist, otherwise whether it is a directory. -/
structure FStat where
  isDirectory : Bool
deriving DecidableEq

/-- The per-entry loop of `runAudit`: collect the non-null `cat`s and the
non-null `loadIssue`s in registry order. -/
def collectOutcomes (registry : List AnalyzerEntry)
    (env : AnalyzerEntry → AnalyzerBehavior) : List Category × List Finding :=
  registry.foldl
    (fun acc entry =>
      let r := runAnalyzer entry (env entry)
      (acc.1 ++ r.cat.toList, acc.2 ++ r.loadIssue.toList)) ([], [])

/-- Function `runAudit` of `src/index.js`, generalised over the registry: validate
the target, run every analyzer, prepend the synthetic load-issues
category when needed, score, and compute the overall score. -/
def runAuditWith (registry : List AnalyzerEntry) (targetDir : String)
    (stat : Option FStat) (env : AnalyzerEntry → AnalyzerBehavior) :
    Except String AuditResult :=
  match stat with
  | none => .error ("Target directory not found: " ++ targetDir)
  | some st =>
      if !st.isDirectory then .error ("Target directory not found: " ++ targetDir)
      else
        let collected := collectOutcomes registry env
        let cats :=
          if collected.2.isEmpty then collected.1
          else
            { id := "analyzer-load", title := "Analyzer Load Issues",
              findings := collected.2 } :: collected.1
        let scored := cats.map scoreCategory
        let overall := computeOverallScore (scored.map (fun c => ⟨c.score, (c.maxPts : Int)⟩))
        .ok { targetDir := targetDir, categories := scored, overallScore := overall }

/-- The fixed `ANALYZERS` registry of `src/index.js`. -/
def ANALYZERS : List AnalyzerEntry :=
  [⟨"structure", "Project Structure", "projectStructure", "analyzeProjectStructure"⟩,
   ⟨"deps", "Dependencies", "dependencies", "analyzeDependencies"⟩,
   ⟨"config", "Config", "config", "analyzeConfig"⟩,
   ⟨"tests", "Test Quality", "testsQuality", "analyzeTestsQuality"⟩,
   ⟨"locators", "Locator Strategy", "locators", "analyzeLocators"⟩,
   ⟨"flakiness", "Flakiness Risks", "flakiness", "analyzeFlakiness"⟩,
   ⟨"reporting", "Reporting & Observability", "reportingObs", "analyzeReportingObs"⟩,
   ⟨"ci", "CI/CD Hygiene", "cicdIntegration", "analyzeCICDIntegration"⟩,
   ⟨"network", "Network/Route Mocks", "networkMocking", "analyzeNetwork"⟩,
   ⟨"core", "Core Functionalities", "core", "analyzeCore"⟩,
   ⟨"advanced", "Advanced Capabilities", "advanced", "analyzeAdvanced"⟩,
   ⟨"data", "Data Management", "dataMgmt", "analyzeDataMgmt"⟩,
   ⟨"best", "Best Practices Enforcement", "bestPractices", "analyzeBestPractices"⟩,
   ⟨"notify", "Notification", "notifications", "analyzeNotification"⟩]

/-- Function `runAudit` applied to the repository's fixed registry. -/
def runAudit (targetDir : String) (stat : Option FStat)
    (env : AnalyzerEntry → AnalyzerBehavior) : Except String AuditResult :=
  runAuditWith ANALYZERS targetDir stat env

/-- Derived view: the category (if any) one registry entry contributes. -/
def entryCat (env : AnalyzerEntry → AnalyzerBehavior) (e : AnalyzerEntry) : Option Category :=
  (runAnalyzer e (env e)).cat

/-- Derived view: the load-issue finding (if any) one registry entry
contributes. -/
def entryLoadIssue (env : AnalyzerEntry → AnalyzerBehavior) (e : AnalyzerEntry) :
    Option Finding :=
  (runAnalyzer e (env e)).loadIssue

/-- Derived view: the (unscored) category list `runAudit` assembles —
every entry's category in registry order, with the synthetic
`Analyzer Load Issues` category prepended when any load issue was
collected. -/
def auditCategories (registry : List AnalyzerEntry)
    (env : AnalyzerEntry → AnalyzerBehavior) : List Category :=
  let lis := registry.filterMap (entryLoadIssue env)
  let cats := registry.filterMap (entryCat env)
  if lis.isEmpty then cats
  else { id := "analyzer-load", title := "Analyzer Load Issues", findings := lis } :: cats

/-- Derived view: the `AuditResult` a successful run produces. -/
def auditResultOf (registry : List AnalyzerEntry) (targetDir : String)
    (env : AnalyzerEntry → AnalyzerBehavior) : AuditResult :=
  let scored := (auditCategories registry env).map scoreCategory
  { targetDir := targetDir, categories := scored
    overallScore := computeOverallScore (scored.map (fun c => ⟨c.score, (c.maxPts : Int)⟩)) }

/-! ## The deduction-based score and the regex helper
(`src/utils/helpers.ts`) -/

/-- The TypeScript `Sev` union type of `src/utils/helpers.ts`. -/
inductive Sev where
  | info | low | medium | high | critical
deriving DecidableEq

/-- The `DEDUCT` table of `src/utils/helpers.ts`. -/
def DEDUCT : Sev → Nat
  | .info => 0
  | .low => 2
  | .medium => 6
  | .high => 12
  | .critical => 20

/-- A finding as read by `applyScore`: a `status` string and an optional
typed severity. -/
structure DFinding where
  status : String
  severity : Option Sev := none
deriving DecidableEq

/-- Function `applyScore` of `src/utils/helpers.ts`: start at 100, subtract
`DEDUCT[f.severity || 'info'] || 0` for each finding with
`status === 'fail'`, then clamp with `Math.max(0, Math.min(100, s))`. -/
def applyScore (findings : List DFinding) : Int :=
  let s := findings.foldl
    (fun (s : Int) f =>
      if f.status = "fail" then s - (DEDUCT (f.severity.getD .info) : Int) else s) 100
  max 0 (min 100 s)

/-- A JS `RegExp` object: its `source`, `flags`, mutable `lastIndex`,
and the pure matching semantics of the pattern — `matchAt text i` is the
first match at or after position `i`, as a `(start, end)` span, `none`
when there is no such match. The per-position semantics does not depend
on the `g` flag (`g` only drives the `lastIndex` iteration state). -/
structure JsRegExp where
  source : String
  flags : String
  lastIndex : Nat
  matchAt : String → Nat → Option (Nat × Nat)

/-- Remove the first occurrence of a character (JS
`String.prototype.replace` with a string pattern replaces only the first
occurrence). -/
def removeFirst (c : Char) : List Char → List Char
  | [] => []
  | x :: xs => if x = c then xs else x :: removeFirst c xs

/-- The expression `(re.flags || '').replace('g', '')` of the `ok` helper. -/
def stripGlobal (flags : String) : String :=
  ⟨removeFirst 'g' flags.data⟩

/-- JS `RegExp.prototype.test`: with the `g` flag it searches from
`lastIndex` and updates it (to the match end on success, to `0` on
failure); without it, it searches from position `0` and leaves the state
alone. Returns the boolean together with the regexp's updated state. -/
def jsTest (re : JsRegExp) (text : String) : Bool × JsRegExp :=
  if 'g' ∈ re.flags.data then
    match re.matchAt text re.lastIndex with
    | some m => (true, { re with lastIndex := m.2 })
    | none => (false, { re with lastIndex := 0 })
  else ((re.matchAt text 0).isSome, re)

/-- Function `ok` of `src/utils/helpers.ts`: `false` on missing/empty text,
otherwise build a fresh `RegExp` from the same source with the `g` flag
stripped (so `lastIndex` starts at `0`) and `test` it. The pair's second
component returns the caller's regexp, which `ok` never mutates. -/
def ok (re : JsRegExp) (text : Option String) : Bool × JsRegExp :=
  match text with
  | none => (false, re)
  | some t =>
      if t = "" then (false, re)
      else
        let safeRe : JsRegExp :=
          { source := re.source, flags := stripGlobal re.flags, lastIndex := 0
            matchAt := re.matchAt }
        ((jsTest safeRe t).1, re)

end PwAudit
namespace PwAudit

theorem scoreStep_foldl (fs : List SFinding) (a b : Nat) :
    fs.foldl scoreStep (a, b) =
      (a + (fs.map findingWeight).sum,
       b + ((fs.filter (fun f => f.status = some "pass")).map findingWeight).sum) := by
  induction fs generalizing a b with
  | nil => simp
  | cons f fs ih =>
    by_cases h : f.status = some "pass" <;>
      simp [scoreStep, h, ih, List.filter_cons] <;> omega

theorem findingWeight_pos (f : SFinding) : 0 < findingWeight f := by
  simp only [findingWeight, WEIGHT]
  repeat' split
  all_goals simp

theorem weights_sum_pos (fs : List SFinding) (h : fs ≠ []) :
    0 < (fs.map findingWeight).sum := by
  cases fs with
  | nil => simp at h
  | cons f fs =>
    have hf := findingWeight_pos f
    simp only [List.map_cons, List.sum_cons]
    omega

theorem computeCategoryScore_eq (fs : List SFinding) (h : fs ≠ []) :
    computeCategoryScore fs =
      ⟨jsRound (((((fs.filter (fun f => f.status = some "pass")).map findingWeight).sum : ℕ) : ℚ)
          / (((fs.map findingWeight).sum : ℕ) : ℚ) * 100),
       (fs.map findingWeight).sum,
       ((fs.filter (fun f => f.status = some "pass")).map findingWeight).sum⟩ := by
  have hne : fs.isEmpty = false := by simpa [List.isEmpty_iff] using h
  have hpos : 0 < (fs.map findingWeight).sum := weights_sum_pos fs h
  simp only [computeCategoryScore, hne, Bool.false_eq_true, if_false, scoreStep_foldl,
    Nat.zero_add, hpos, if_true]

theorem sum_score_foldl (cs : List SCat) (a : Int) :
    cs.foldl (fun s c => s + c.score) a = a + (cs.map SCat.score).sum := by
  induction cs generalizing a with
  | nil => simp
  | cons c cs ih => simp [ih]; ring

theorem overallStep_foldl (cs : List SCat) (a b : Int) :
    cs.foldl overallStep (a, b) =
      (a + (cs.map (fun c => c.score * max 0 c.maxPts)).sum,
       b + (cs.map (fun c => max 0 c.maxPts)).sum) := by
  induction cs generalizing a b with
  | nil => simp
  | cons c cs ih =>
    by_cases h : 0 < max 0 c.maxPts
    · simp only [List.foldl_cons, overallStep, h, if_true, ih, List.map_cons, List.sum_cons,
        Prod.mk.injEq]
      constructor <;> ring
    · have h0 : max 0 c.maxPts = 0 := by omega
      simp [overallStep, h, ih, h0]

theorem computeOverallScore_weighted (cs : List SCat)
    (h0 : ∀ c ∈ cs, 0 ≤ c.maxPts) (hpos : 0 < (cs.map (fun c => c.maxPts)).sum) :
    computeOverallScore cs =
      jsRound ((((cs.map (fun c => c.score * c.maxPts)).sum : ℤ) : ℚ)
        / (((cs.map (fun c => c.maxPts)).sum : ℤ) : ℚ)) := by
  have hmax : ∀ c ∈ cs, max 0 c.maxPts = c.maxPts := fun c hc => max_eq_right (h0 c hc)
  have hmap1 : cs.map (fun c => c.score * max 0 c.maxPts) = cs.map (fun c => c.score * c.maxPts) :=
    List.map_congr_left (fun c hc => by rw [hmax c hc])
  have hmap2 : cs.map (fun c => max 0 c.maxPts) = cs.map (fun c => c.maxPts) :=
    List.map_congr_left (fun c hc => hmax c hc)
  have hne : cs ≠ [] := by rintro rfl; simp at hpos
  have hb : cs.isEmpty = false := by simpa [List.isEmpty_iff] using hne
  simp only [computeOverallScore, hb, Bool.false_eq_true, if_false, overallStep_foldl,
    zero_add, hmap1, hmap2, hpos, if_true]

theorem jsRound_jsOrZero (q : ℚ) : jsRound (if q = 0 then 0 else q) = jsRound q := by
  by_cases h : q = 0 <;> simp [h]

theorem computeOverallScore_mean (cs : List SCat) (hne : cs ≠ [])
    (h0 : ∀ c ∈ cs, c.maxPts = 0) :
    computeOverallScore cs =
      jsRound ((((cs.map SCat.score).sum : ℤ) : ℚ) / (cs.length : ℚ)) := by
  have hmax : ∀ c ∈ cs, max 0 c.maxPts = 0 := fun c hc => by rw [h0 c hc]; simp
  have hmap2 : cs.map (fun c => max 0 c.maxPts) = cs.map (fun _ => (0 : Int)) :=
    List.map_congr_left (fun c hc => hmax c hc)
  have hsum : (cs.map (fun c => max 0 c.maxPts)).sum = 0 := by
    rw [hmap2]; simp
  have hb : cs.isEmpty = false := by simpa [List.isEmpty_iff] using hne
  simp only [computeOverallScore, hb, Bool.false_eq_true, if_false, overallStep_foldl,
    sum_score_foldl, zero_add, hsum]
  rw [if_neg (lt_irrefl 0)]
  exact jsRound_jsOrZero _

end PwAudit
namespace PwAudit

/-- C1: for every list of findings, `computeCategoryScore` returns the
severity-weighted pass ratio `round(earnedPoints / maxPoints * 100)`, where
every finding contributes its weight to `maxPoints` and contributes it to
`earnedPoints` exactly when its status is `'pass'`; the weights of the five
severities are `info=1, low=2, medium=4, high=8, critical=12`; an empty
findings list yields score `100` with `maxPoints = 0`; and the findings
`[{severity:'critical',status:'fail'}, {severity:'info',status:'pass'}]`
yield `maxPoints = 13`, `earnedPoints = 1`, `score = 8`. -/
theorem claim_C1_category_score :
    (∀ fs : List SFinding, fs ≠ [] →
        computeCategoryScore fs =
          ⟨jsRound (((((fs.filter (fun f => f.status = some "pass")).map findingWeight).sum : ℕ) : ℚ)
              / (((fs.map findingWeight).sum : ℕ) : ℚ) * 100),
           (fs.map findingWeight).sum,
           ((fs.filter (fun f => f.status = some "pass")).map findingWeight).sum⟩) ∧
    (∀ st, findingWeight ⟨some "info", st⟩ = 1 ∧ findingWeight ⟨some "low", st⟩ = 2 ∧
      findingWeight ⟨some "medium", st⟩ = 4 ∧ findingWeight ⟨some "high", st⟩ = 8 ∧
      findingWeight ⟨some "critical", st⟩ = 12) ∧
    computeCategoryScore [] = ⟨100, 0, 0⟩ ∧
    computeCategoryScore [⟨some "critical", some "fail"⟩, ⟨some "info", some "pass"⟩] =
      ⟨8, 13, 1⟩ := by
  refine ⟨computeCategoryScore_eq, fun st => ⟨rfl, rfl, rfl, rfl, rfl⟩, rfl, ?_⟩
  have hmp : List.foldl scoreStep (0, 0)
      [(⟨some "critical", some "fail"⟩ : SFinding), ⟨some "info", some "pass"⟩] = (13, 1) := by
    decide
  simp only [computeCategoryScore, List.isEmpty, hmp]
  norm_num [jsRound, Int.floor_eq_iff]

/-- Witness for C1 at the one-finding list `[{severity:'high',status:'pass'}]`. -/
theorem claim_C1_category_score_witness :
    ([(⟨some "high", some "pass"⟩ : SFinding)] ≠ []) ∧
    computeCategoryScore [(⟨some "high", some "pass"⟩ : SFinding)] =
      ⟨jsRound ((((([(⟨some "high", some "pass"⟩ : SFinding)].filter
              (fun f => f.status = some "pass")).map findingWeight).sum : ℕ) : ℚ)
          / ((([(⟨some "high", some "pass"⟩ : SFinding)].map findingWeight).sum : ℕ) : ℚ) * 100),
       ([(⟨some "high", some "pass"⟩ : SFinding)].map findingWeight).sum,
       (([(⟨some "high", some "pass"⟩ : SFinding)].filter
          (fun f => f.status = some "pass")).map findingWeight).sum⟩ :=
  ⟨by decide, claim_C1_category_score.1 _ (by decide)⟩

/-- C2: the overall score is the rounded `maxPoints`-weighted mean of the
category scores; when every category has `maxPoints = 0` it is the rounded
unweighted mean; an empty category list yields `100`; and the two
categories `{score:100, maxPoints:10}`, `{score:0, maxPoints:30}` yield
`round(1000/40) = 25`. -/
theorem claim_C2_overall_score :
    (∀ cs : List SCat, (∀ c ∈ cs, 0 ≤ c.maxPts) →
        (0 < (cs.map (fun c => c.maxPts)).sum →
          computeOverallScore cs =
            jsRound ((((cs.map (fun c => c.score * c.maxPts)).sum : ℤ) : ℚ)
              / (((cs.map (fun c => c.maxPts)).sum : ℤ) : ℚ))) ∧
        (cs ≠ [] → (∀ c ∈ cs, c.maxPts = 0) →
          computeOverallScore cs =
            jsRound ((((cs.map SCat.score).sum : ℤ) : ℚ) / (cs.length : ℚ)))) ∧
    computeOverallScore [] = 100 ∧
    computeOverallScore [⟨100, 10⟩, ⟨0, 30⟩] = 25 := by
  refine ⟨fun cs h0 => ⟨fun hpos => computeOverallScore_weighted cs h0 hpos,
    fun hne hz => computeOverallScore_mean cs hne hz⟩, rfl, ?_⟩
  have h : List.foldl overallStep (0, 0) [(⟨100, 10⟩ : SCat), ⟨0, 30⟩] = (1000, 40) := by decide
  simp only [computeOverallScore, List.isEmpty, h]
  norm_num [jsRound, Int.floor_eq_iff]

/-- Witness for C2 at the one-category list `[{score:100, maxPoints:10}]`. -/
theorem claim_C2_overall_score_witness :
    (∀ c ∈ [(⟨100, 10⟩ : SCat)], 0 ≤ c.maxPts) ∧
    (0 < ([(⟨100, 10⟩ : SCat)].map (fun c => c.maxPts)).sum) ∧
    computeOverallScore [(⟨100, 10⟩ : SCat)] =
      jsRound (((([(⟨100, 10⟩ : SCat)].map (fun c => c.score * c.maxPts)).sum : ℤ) : ℚ)
        / ((([(⟨100, 10⟩ : SCat)].map (fun c => c.maxPts)).sum : ℤ) : ℚ)) :=
  ⟨by decide, by decide, (claim_C2_overall_score.1 _ (by decide)).1 (by decide)⟩

/-- C7 counterexample: when every pre-existing category has
`maxPoints = 0`, appending another `maxPoints = 0` category changes the
overall score: `[{score:100,maxPoints:0}]` scores `100`, but appending
`{score:0,maxPoints:0}` drops it to `50` (the unweighted-mean fallback
includes the new category). -/
theorem claim_C7_counterexample :
    computeOverallScore [⟨100, 0⟩] = 100 ∧
    computeOverallScore ([⟨100, 0⟩] ++ [⟨0, 0⟩]) = 50 ∧
    computeOverallScore ([⟨100, 0⟩] ++ [⟨0, 0⟩]) ≠ computeOverallScore [⟨100, 0⟩] := by
  have h1 : computeOverallScore [⟨100, 0⟩] = 100 := by
    have h : List.foldl overallStep (0, 0) [(⟨100, 0⟩ : SCat)] = (0, 0) := by decide
    have h2 : List.foldl (fun s (c : SCat) => s + c.score) 0 [(⟨100, 0⟩ : SCat)] = 100 := by decide
    simp only [computeOverallScore, List.isEmpty, h, h2, List.length]
    norm_num [jsRound, Int.floor_eq_iff]
  have h2 : computeOverallScore ([⟨100, 0⟩] ++ [⟨0, 0⟩]) = 50 := by
    have h : List.foldl overallStep (0, 0) [(⟨100, 0⟩ : SCat), ⟨0, 0⟩] = (0, 0) := by decide
    have h2 : List.foldl (fun s (c : SCat) => s + c.score) 0
        [(⟨100, 0⟩ : SCat), ⟨0, 0⟩] = 100 := by decide
    simp only [List.cons_append, List.nil_append, computeOverallScore, List.isEmpty, h, h2,
      List.length]
    norm_num [jsRound, Int.floor_eq_iff]
  exact ⟨h1, h2, by rw [h1, h2]; decide⟩

/-- C7 amended: extending a category list with a new `maxPoints = 0`
category never changes the overall score, provided at least one existing
category has positive `maxPoints` (so the weighted branch, which ignores
zero-weight categories, is taken on both sides). -/
theorem claim_C7_amended (cs : List SCat) (c : SCat)
    (hc : c.maxPts = 0) (h : ∃ d ∈ cs, 0 < d.maxPts) :
    computeOverallScore (cs ++ [c]) = computeOverallScore cs := by
  have hne : cs ≠ [] := by rintro rfl; simp at h
  have hS : 0 < (cs.map (fun d => max 0 d.maxPts)).sum := by
    obtain ⟨d, hd, hdpos⟩ := h
    have hmem : max 0 d.maxPts ∈ cs.map (fun d => max 0 d.maxPts) :=
      List.mem_map_of_mem _ hd
    have hle : max 0 d.maxPts ≤ (cs.map (fun d => max 0 d.maxPts)).sum :=
      List.single_le_sum (fun x hx => by
        obtain ⟨e, _, rfl⟩ := List.mem_map.mp hx
        exact le_max_left 0 e.maxPts) _ hmem
    omega
  have happ_w : ((cs ++ [c]).map (fun d => d.score * max 0 d.maxPts)).sum
      = (cs.map (fun d => d.score * max 0 d.maxPts)).sum := by simp [hc]
  have happ_s : ((cs ++ [c]).map (fun d => max 0 d.maxPts)).sum
      = (cs.map (fun d => max 0 d.maxPts)).sum := by simp [hc]
  have hb : cs.isEmpty = false := by simpa [List.isEmpty_iff] using hne
  have hb2 : (cs ++ [c]).isEmpty = false := by simp
  simp only [computeOverallScore, hb, hb2, Bool.false_eq_true, if_false, overallStep_foldl,
    zero_add, happ_w, happ_s, hS, if_true]

/-- Witness for the amended C7 at `[{score:0,maxPoints:5}]` extended with
`{score:77,maxPoints:0}`. -/
theorem claim_C7_amended_witness :
    ((⟨77, 0⟩ : SCat).maxPts = 0) ∧
    (∃ d ∈ [(⟨0, 5⟩ : SCat)], 0 < d.maxPts) ∧
    computeOverallScore ([(⟨0, 5⟩ : SCat)] ++ [⟨77, 0⟩]) =
      computeOverallScore [(⟨0, 5⟩ : SCat)] :=
  ⟨by decide, by decide, claim_C7_amended _ _ (by decide) (by decide)⟩

end PwAudit
namespace PwAudit

/-- C6: scoring treats a missing or unrecognized severity as `'low'`
(weight `2`), earned points accrue only for findings whose status is
exactly `'pass'`, and normalization resolves every finding's status to
exactly `'pass'` or `'fail'`, defaulting anything else to `'fail'`. -/
theorem claim_C6_fail_closed :
    (∀ st, findingWeight ⟨none, st⟩ = 2) ∧
    (∀ sev st, sev ∉ (["info", "low", "medium", "high", "critical"] : List String) →
      findingWeight ⟨some sev, st⟩ = 2) ∧
    (∀ fs : List SFinding,
      (computeCategoryScore fs).earnedPoints =
        ((fs.filter (fun f => f.status = some "pass")).map findingWeight).sum) ∧
    (∀ rf : RawFinding,
      (normalizeFinding rf).status = "pass" ∨ (normalizeFinding rf).status = "fail") ∧
    (∀ rf : RawFinding, rf.status ≠ some "pass" → rf.status ≠ some "fail" →
      (normalizeFinding rf).status = "fail") := by
  refine ⟨fun st => rfl, ?_, ?_, ?_, ?_⟩
  · intro sev st h
    simp only [List.mem_cons, List.not_mem_nil, or_false, not_or] at h
    obtain ⟨h1, h2, h3, h4, h5⟩ := h
    simp [findingWeight, WEIGHT, h1, h2, h3, h4, h5]
  · intro fs
    cases fs with
    | nil => rfl
    | cons f fs => rw [computeCategoryScore_eq _ (by simp)]
  · intro rf
    rcases hst : rf.status with _ | s
    · right; simp [normalizeFinding, hst]
    · by_cases hp : s = "pass"
      · left; simp [normalizeFinding, hst, hp]
      · right
        simp only [normalizeFinding, hst, hp, false_or]
        by_cases hf : s = "fail" <;> simp [hf]
  · intro rf h1 h2
    rcases hst : rf.status with _ | s
    · simp [normalizeFinding, hst]
    · have hp : s ≠ "pass" := by rintro rfl; exact h1 hst
      have hf : s ≠ "fail" := by rintro rfl; exact h2 hst
      simp [normalizeFinding, hst, hp, hf]

/-- Witness for C6 at severity `'bogus'` and status `'maybe'`. -/
theorem claim_C6_fail_closed_witness :
    ("bogus" ∉ (["info", "low", "medium", "high", "critical"] : List String)) ∧
    findingWeight ⟨some "bogus", some "fail"⟩ = 2 ∧
    (({ status := some "maybe" } : RawFinding).status ≠ some "pass") ∧
    (({ status := some "maybe" } : RawFinding).status ≠ some "fail") ∧
    (normalizeFinding { status := some "maybe" }).status = "fail" :=
  ⟨by decide, claim_C6_fail_closed.2.1 "bogus" (some "fail") (by decide), by decide, by decide,
    claim_C6_fail_closed.2.2.2.2 _ (by decide) (by decide)⟩

theorem applyScore_foldl (fs : List DFinding) (a : Int) :
    fs.foldl
      (fun (s : Int) f =>
        if f.status = "fail" then s - (DEDUCT (f.severity.getD .info) : Int) else s) a
      = a - ((fs.filter (fun f => f.status = "fail")).map
          (fun f => (DEDUCT (f.severity.getD .info) : Int))).sum := by
  induction fs generalizing a with
  | nil => simp
  | cons f fs ih =>
    by_cases h : f.status = "fail" <;> simp [h, ih, List.filter_cons]
    ring

/-- C9: `applyScore` is `100` minus the sum of the per-severity deduction
of every finding whose status is exactly `'fail'`, clamped to `[0, 100]`;
since deductions are nonnegative the upper clamp is vacuous and the result
is simply floored at `0`; all other statuses deduct nothing. -/
theorem claim_C9_applyScore :
    ∀ fs : List DFinding,
      applyScore fs = max 0 (min 100 (100 -
        ((fs.filter (fun f => f.status = "fail")).map
          (fun f => (DEDUCT (f.severity.getD .info) : Int))).sum)) ∧
      applyScore fs = max 0 (100 -
        ((fs.filter (fun f => f.status = "fail")).map
          (fun f => (DEDUCT (f.severity.getD .info) : Int))).sum) ∧
      0 ≤ applyScore fs ∧ applyScore fs ≤ 100 := by
  intro fs
  have h1 : applyScore fs = max 0 (min 100 (100 -
      ((fs.filter (fun f => f.status = "fail")).map
        (fun f => (DEDUCT (f.severity.getD .info) : Int))).sum)) := by
    simp only [applyScore, applyScore_foldl]
  have hT : 0 ≤ ((fs.filter (fun f => f.status = "fail")).map
      (fun f => (DEDUCT (f.severity.getD .info) : Int))).sum :=
    List.sum_nonneg (fun x hx => by
      obtain ⟨f, _, rfl⟩ := List.mem_map.mp hx
      exact Int.natCast_nonneg _)
  refine ⟨h1, ?_, ?_, ?_⟩
  · rw [h1, min_eq_right (by omega)]
  · rw [h1]; omega
  · rw [h1]; omega

end PwAudit
namespace PwAudit

theorem collectOutcomes_foldl (registry : List AnalyzerEntry)
    (env : AnalyzerEntry → AnalyzerBehavior) (a : List Category) (b : List Finding) :
    registry.foldl
      (fun acc entry =>
        let r := runAnalyzer entry (env entry)
        (acc.1 ++ r.cat.toList, acc.2 ++ r.loadIssue.toList)) (a, b) =
      (a ++ registry.filterMap (entryCat env), b ++ registry.filterMap (entryLoadIssue env)) := by
  induction registry generalizing a b with
  | nil => simp
  | cons e es ih =>
    simp only [List.foldl_cons, ih, List.filterMap_cons, entryCat, entryLoadIssue]
    rcases h1 : (runAnalyzer e (env e)).cat with _ | c <;>
      rcases h2 : (runAnalyzer e (env e)).loadIssue with _ | li <;>
        simp [h1, h2, entryCat, entryLoadIssue]

theorem collectOutcomes_eq (registry : List AnalyzerEntry)
    (env : AnalyzerEntry → AnalyzerBehavior) :
    collectOutcomes registry env =
      (registry.filterMap (entryCat env), registry.filterMap (entryLoadIssue env)) := by
  simpa [collectOutcomes] using collectOutcomes_foldl registry env [] []

theorem runAuditWith_ok (registry : List AnalyzerEntry) (targetDir : String) (st : FStat)
    (env : AnalyzerEntry → AnalyzerBehavior) (hst : st.isDirectory = true) :
    runAuditWith registry targetDir (some st) env =
      .ok (auditResultOf registry targetDir env) := by
  simp only [runAuditWith, hst, Bool.not_true, Bool.false_eq_true, if_false,
    collectOutcomes_eq, auditResultOf, auditCategories]

end PwAudit
namespace PwAudit

/-- C5: a missing target path, or a target that is not a directory, makes
`runAudit` throw the descriptive error `Target directory not found: ...`
without consulting any analyzer (the outcome is the same constant for
every analyzer environment); a valid directory target always yields a
successful result, so the target validation is the only failure that
propagates out of a run. -/
theorem claim_C5_target_validation :
    (∀ (registry : List AnalyzerEntry) (targetDir : String)
        (env : AnalyzerEntry → AnalyzerBehavior),
        runAuditWith registry targetDir none env =
          .error ("Target directory not found: " ++ targetDir)) ∧
    (∀ (registry : List AnalyzerEntry) (targetDir : String) (st : FStat)
        (env : AnalyzerEntry → AnalyzerBehavior), st.isDirectory = false →
        runAuditWith registry targetDir (some st) env =
          .error ("Target directory not found: " ++ targetDir)) ∧
    (∀ (registry : List AnalyzerEntry) (targetDir : String) (st : FStat)
        (env : AnalyzerEntry → AnalyzerBehavior), st.isDirectory = true →
        runAuditWith registry targetDir (some st) env =
          .ok (auditResultOf registry targetDir env)) := by
  refine ⟨fun _ _ _ => rfl, ?_, ?_⟩
  · intro registry targetDir st env h
    simp [runAuditWith, h]
  · intro registry targetDir st env h
    exact runAuditWith_ok registry targetDir st env h

/-- Witness for C5: a file target (not a directory) aborts the run, a
directory target succeeds, both on the fixed registry. -/
theorem claim_C5_target_validation_witness :
    ((⟨false⟩ : FStat).isDirectory = false) ∧
    runAuditWith ANALYZERS "missing" (some ⟨false⟩) (fun _ => .noFn) =
      .error ("Target directory not found: " ++ "missing") ∧
    ((⟨true⟩ : FStat).isDirectory = true) ∧
    runAuditWith ANALYZERS "proj" (some ⟨true⟩) (fun _ => .noFn) =
      .ok (auditResultOf ANALYZERS "proj" (fun _ => .noFn)) :=
  ⟨rfl, claim_C5_target_validation.2.1 ANALYZERS "missing" ⟨false⟩ _ rfl, rfl,
   claim_C5_target_validation.2.2 ANALYZERS "proj" ⟨true⟩ _ rfl⟩

theorem filterMap_eq_nil_of_forall {α β : Type} (l : List α) (f : α → Option β)
    (h : ∀ a ∈ l, f a = none) : l.filterMap f = [] := by
  induction l with
  | nil => rfl
  | cons a l ih =>
    rw [List.filterMap_cons, h a (List.mem_cons_self a l)]
    exact ih (fun x hx => h x (List.mem_cons_of_mem a hx))

theorem filterMap_eq_map_of_forall {α β : Type} (l : List α) (f : α → Option β) (g : α → β)
    (h : ∀ a ∈ l, f a = some (g a)) : l.filterMap f = l.map g := by
  induction l with
  | nil => rfl
  | cons a l ih =>
    rw [List.filterMap_cons, h a (List.mem_cons_self a l), List.map_cons]
    rw [ih (fun x hx => h x (List.mem_cons_of_mem a hx))]

/-- C3: an analyzer that throws (synchronously or via a rejected promise —
both surface as the caught exception of the `await`) is replaced by a
category with exactly one finding `analyzer-error` / `high` / `fail`
carrying the exception text; and for every registry whose analyzers each
either throw or return a (non-null) output, the run succeeds with exactly
one category per registry entry, each depending only on that entry's own
behavior — so the categories of the non-failing analyzers are unaffected
by the failing ones. -/
theorem claim_C3_runner_isolation :
    (∀ (e : AnalyzerEntry) (msg : String),
        runAnalyzer e (.throws msg) =
          ⟨some ⟨e.id, e.title,
            [⟨"analyzer-error", "Analyzer failed", msg, none, "high", "fail", none, none⟩]⟩,
           none⟩) ∧
    (∀ (registry : List AnalyzerEntry) (targetDir : String) (st : FStat)
        (env : AnalyzerEntry → AnalyzerBehavior), st.isDirectory = true →
        (∀ e ∈ registry, (∃ msg, env e = .throws msg) ∨ ∃ out, env e = .returns (some out)) →
        ∃ cmap : AnalyzerEntry → Category,
          (∀ e ∈ registry, ∀ msg, env e = .throws msg →
            cmap e = ⟨e.id, e.title,
              [⟨"analyzer-error", "Analyzer failed", msg, none, "high", "fail", none, none⟩]⟩) ∧
          (∀ e ∈ registry, ∀ out, env e = .returns (some out) →
            some (cmap e) = normalizeCategory e (some out)) ∧
          runAuditWith registry targetDir (some st) env =
            .ok (auditResultOf registry targetDir env) ∧
          (auditResultOf registry targetDir env).categories =
            registry.map (fun e => scoreCategory (cmap e))) := by
  refine ⟨fun e msg => rfl, ?_⟩
  intro registry targetDir st env hst henv
  refine ⟨fun e => ((runAnalyzer e (env e)).cat).getD ⟨e.id, e.title, []⟩, ?_, ?_, ?_, ?_⟩
  · intro e _ msg hmsg
    simp only [hmsg]
    rfl
  · intro e _ out hout
    simp only [hout]
    rfl
  · exact runAuditWith_ok registry targetDir st env hst
  · have hcats : registry.filterMap (entryCat env) =
        registry.map (fun e => ((runAnalyzer e (env e)).cat).getD ⟨e.id, e.title, []⟩) := by
      refine filterMap_eq_map_of_forall _ _ _ ?_
      intro e he
      rcases henv e he with ⟨msg, hmsg⟩ | ⟨out, hout⟩
      · rw [entryCat, hmsg]; rfl
      · rw [entryCat, hout]; rfl
    have hlis : registry.filterMap (entryLoadIssue env) = [] := by
      refine filterMap_eq_nil_of_forall _ _ ?_
      intro e he
      rcases henv e he with ⟨msg, hmsg⟩ | ⟨out, hout⟩
      · rw [entryLoadIssue, hmsg]; rfl
      · rw [entryLoadIssue, hout]; rfl
    simp only [auditResultOf, auditCategories, hlis, hcats, List.isEmpty_nil, if_true,
      List.map_map]
    rfl

/-- Witness for C3: a two-entry registry where the first analyzer throws
and the second returns an empty category; the run yields exactly two
categories. -/
theorem claim_C3_runner_isolation_witness :
    ((⟨true⟩ : FStat).isDirectory = true) ∧
    (∀ e ∈ ([⟨"a", "A", "a", "fa"⟩, ⟨"b", "B", "b", "fb"⟩] : List AnalyzerEntry),
      (∃ msg, (fun e2 : AnalyzerEntry =>
          if e2.id = "a" then AnalyzerBehavior.throws "boom"
          else .returns (some { findings := some [] })) e = .throws msg) ∨
      ∃ out, (fun e2 : AnalyzerEntry =>
          if e2.id = "a" then AnalyzerBehavior.throws "boom"
          else .returns (some { findings := some [] })) e = .returns (some out)) ∧
    (auditResultOf [⟨"a", "A", "a", "fa"⟩, ⟨"b", "B", "b", "fb"⟩] "proj"
      (fun e2 : AnalyzerEntry =>
        if e2.id = "a" then AnalyzerBehavior.throws "boom"
        else .returns (some { findings := some [] }))).categories.length = 2 := by
  have henv : ∀ e ∈ ([⟨"a", "A", "a", "fa"⟩, ⟨"b", "B", "b", "fb"⟩] : List AnalyzerEntry),
      (∃ msg, (fun e2 : AnalyzerEntry =>
          if e2.id = "a" then AnalyzerBehavior.throws "boom"
          else .returns (some { findings := some [] })) e = .throws msg) ∨
      ∃ out, (fun e2 : AnalyzerEntry =>
          if e2.id = "a" then AnalyzerBehavior.throws "boom"
          else .returns (some { findings := some [] })) e = .returns (some out) := by
    intro e he
    rcases List.mem_cons.mp he with rfl | he2
    · exact Or.inl ⟨"boom", rfl⟩
    · rcases List.mem_cons.mp he2 with rfl | h3
      · exact Or.inr ⟨{ findings := some [] }, rfl⟩
      · exact absurd h3 (List.not_mem_nil _)
  refine ⟨rfl, henv, ?_⟩
  obtain ⟨cmap, -, -, -, hcats⟩ :=
    claim_C3_runner_isolation.2 [⟨"a", "A", "a", "fa"⟩, ⟨"b", "B", "b", "fb"⟩] "proj" ⟨true⟩
      (fun e2 : AnalyzerEntry =>
        if e2.id = "a" then AnalyzerBehavior.throws "boom"
        else .returns (some { findings := some [] })) rfl henv
  rw [hcats, List.length_map]
  rfl

end PwAudit
namespace PwAudit

/-- C4: a registry entry whose analyzer module cannot be found produces no
category and exactly one load-issue finding, with id `load-<entryId>` and
severity `high`; and whenever at least one load issue was collected, the
successful run's category list starts with the single synthetic
`Analyzer Load Issues` category holding all collected load-issue findings,
followed by the regular categories. -/
theorem claim_C4_load_issues :
    (∀ (e : AnalyzerEntry) (tried errors : List String),
        runAnalyzer e (.loadMiss tried errors) =
          ⟨none, some ⟨"load-" ++ e.id, "Analyzer not loaded: " ++ e.title,
            loadMissMessage e tried errors, none, "high", "fail", none, none⟩⟩) ∧
    (∀ (registry : List AnalyzerEntry) (targetDir : String) (st : FStat)
        (env : AnalyzerEntry → AnalyzerBehavior) (r : AuditResult), st.isDirectory = true →
        runAuditWith registry targetDir (some st) env = .ok r →
        registry.filterMap (entryLoadIssue env) ≠ [] →
        r.categories =
          scoreCategory ⟨"analyzer-load", "Analyzer Load Issues",
            registry.filterMap (entryLoadIssue env)⟩
            :: (registry.filterMap (entryCat env)).map scoreCategory) := by
  refine ⟨fun e tried errors => rfl, ?_⟩
  intro registry targetDir st env r hst hok hne
  rw [runAuditWith_ok registry targetDir st env hst] at hok
  injection hok with hok
  subst hok
  have hb : (registry.filterMap (entryLoadIssue env)).isEmpty = false := by
    simpa [List.isEmpty_iff] using hne
  simp only [auditResultOf, auditCategories, hb, Bool.false_eq_true, if_false, List.map_cons]

/-- Witness for C4: one registry entry whose module is missing; the run's
first category is the synthetic load-issues category. -/
theorem claim_C4_load_issues_witness :
    ((⟨true⟩ : FStat).isDirectory = true) ∧
    runAuditWith [⟨"deps", "Dependencies", "dependencies", "analyzeDependencies"⟩] "proj"
      (some ⟨true⟩) (fun _ => .loadMiss ["p1"] []) =
      .ok (auditResultOf [⟨"deps", "Dependencies", "dependencies", "analyzeDependencies"⟩]
        "proj" (fun _ => .loadMiss ["p1"] [])) ∧
    ([⟨"deps", "Dependencies", "dependencies", "analyzeDependencies"⟩].filterMap
      (entryLoadIssue (fun _ => .loadMiss ["p1"] [])) ≠ []) ∧
    (auditResultOf [⟨"deps", "Dependencies", "dependencies", "analyzeDependencies"⟩] "proj"
      (fun _ => .loadMiss ["p1"] [])).categories =
      scoreCategory ⟨"analyzer-load", "Analyzer Load Issues",
        [⟨"deps", "Dependencies", "dependencies", "analyzeDependencies"⟩].filterMap
          (entryLoadIssue (fun _ => .loadMiss ["p1"] []))⟩
        :: ([⟨"deps", "Dependencies", "dependencies", "analyzeDependencies"⟩].filterMap
          (entryCat (fun _ => .loadMiss ["p1"] []))).map scoreCategory := by
  have hok := runAuditWith_ok [⟨"deps", "Dependencies", "dependencies", "analyzeDependencies"⟩]
    "proj" ⟨true⟩ (fun _ => .loadMiss ["p1"] []) rfl
  have hne : ([⟨"deps", "Dependencies", "dependencies", "analyzeDependencies"⟩].filterMap
      (entryLoadIssue (fun _ => .loadMiss ["p1"] [])) ≠ []) := by
    simp [entryLoadIssue, runAnalyzer]
  exact ⟨rfl, hok,
    hne, claim_C4_load_issues.2 _ "proj" ⟨true⟩ _ _ rfl hok hne⟩

/-- C8 counterexample: an analyzer that loads and runs but resolves with a
falsy value (`undefined`) contributes neither a category nor a load
issue, so a non-empty registry of such analyzers yields an empty
`categories` list, contradicting the claim for the behavior
"returning any value". -/
theorem claim_C8_counterexample :
    (runAuditWith [⟨"structure", "Project Structure", "projectStructure",
        "analyzeProjectStructure"⟩] "proj" (some ⟨true⟩)
      (fun _ => .returns none)).map AuditResult.categories = .ok [] := rfl

/-- C8 amended: for every non-empty registry and valid target, if no
analyzer resolves with a falsy output (each one misses on load, exports no
callable, throws, or returns a non-null output), then the result's
`categories` list is non-empty: each entry contributes a normal category or
a load-issue finding absorbed into the synthetic load-issues category. -/
theorem claim_C8_amended (registry : List AnalyzerEntry) (targetDir : String) (st : FStat)
    (env : AnalyzerEntry → AnalyzerBehavior) (r : AuditResult)
    (hst : st.isDirectory = true) (hne : registry ≠ [])
    (hnn : ∀ e ∈ registry, env e ≠ .returns none)
    (hok : runAuditWith registry targetDir (some st) env = .ok r) :
    r.categories ≠ [] := by
  rw [runAuditWith_ok registry targetDir st env hst] at hok
  injection hok with hok
  subst hok
  cases registry with
  | nil => exact absurd rfl hne
  | cons e es =>
    simp only [auditResultOf, auditCategories]
    rcases hb : ((e :: es).filterMap (entryLoadIssue env)).isEmpty with _ | _
    · simp
    · have hemp : (e :: es).filterMap (entryLoadIssue env) = [] := by
        simpa [List.isEmpty_iff] using hb
      rw [if_pos rfl]
      intro hcon
      have hcats : (e :: es).filterMap (entryCat env) = [] := by
        cases hfc : (e :: es).filterMap (entryCat env) with
        | nil => rfl
        | cons c cs => rw [hfc] at hcon; simp at hcon
      have hmem0 : e ∈ e :: es := List.mem_cons_self e es
      rcases hbeh : env e with ⟨tried, errs⟩ | _ | ⟨msg⟩ | ⟨out⟩
      · have hli : entryLoadIssue env e =
            some ⟨"load-" ++ e.id, "Analyzer not loaded: " ++ e.title,
              loadMissMessage e tried errs, none, "high", "fail", none, none⟩ := by
          rw [entryLoadIssue, hbeh]
          rfl
        have hmem := List.mem_filterMap.mpr ⟨e, hmem0, hli⟩
        rw [hemp] at hmem
        exact absurd hmem (List.not_mem_nil _)
      · have hli : entryLoadIssue env e =
            some ⟨"no-fn-" ++ e.id, "Analyzer export missing: " ++ e.title,
              "Module loaded but export \"" ++ e.fnName ++ "\" not found.",
              none, "high", "fail", none, none⟩ := by
          rw [entryLoadIssue, hbeh]
          rfl
        have hmem := List.mem_filterMap.mpr ⟨e, hmem0, hli⟩
        rw [hemp] at hmem
        exact absurd hmem (List.not_mem_nil _)
      · have hcat : entryCat env e =
            some ⟨e.id, e.title,
              [⟨"analyzer-error", "Analyzer failed", msg, none, "high", "fail", none, none⟩]⟩ := by
          rw [entryCat, hbeh]
          rfl
        have hmem := List.mem_filterMap.mpr ⟨e, hmem0, hcat⟩
        rw [hcats] at hmem
        exact absurd hmem (List.not_mem_nil _)
      · rcases out with _ | o
        · exact absurd hbeh (hnn e hmem0)
        · have hcat : entryCat env e = some
              ⟨jsOrStr o.id e.id, jsOrStr o.title e.title,
                (o.findings.getD []).map normalizeFinding⟩ := by
            rw [entryCat, hbeh]
            rfl
          have hmem := List.mem_filterMap.mpr ⟨e, hmem0, hcat⟩
          rw [hcats] at hmem
          exact absurd hmem (List.not_mem_nil _)

/-- Witness for the amended C8: one entry whose analyzer throws; the run
succeeds and its category list is non-empty. -/
theorem claim_C8_amended_witness :
    ((⟨true⟩ : FStat).isDirectory = true) ∧
    (([⟨"config", "Config", "config", "analyzeConfig"⟩] : List AnalyzerEntry) ≠ []) ∧
    (∀ e ∈ ([⟨"config", "Config", "config", "analyzeConfig"⟩] : List AnalyzerEntry),
      (fun _ : AnalyzerEntry => AnalyzerBehavior.throws "boom") e ≠ .returns none) ∧
    runAuditWith [⟨"config", "Config", "config", "analyzeConfig"⟩] "proj" (some ⟨true⟩)
      (fun _ => .throws "boom") =
      .ok (auditResultOf [⟨"config", "Config", "config", "analyzeConfig"⟩] "proj"
        (fun _ => .throws "boom")) ∧
    (auditResultOf [⟨"config", "Config", "config", "analyzeConfig"⟩] "proj"
      (fun _ => .throws "boom")).categories ≠ [] := by
  have hok := runAuditWith_ok [⟨"config", "Config", "config", "analyzeConfig"⟩] "proj" ⟨true⟩
    (fun _ => .throws "boom") rfl
  exact ⟨rfl, by simp, by intro e he; simp, hok,
    claim_C8_amended _ "proj" ⟨true⟩ _ _ rfl (by simp) (by intro e he; simp) hok⟩

end PwAudit
namespace PwAudit

theorem count_removeFirst_notMem (l : List Char) (h : l.count 'g' ≤ 1) :
    'g' ∉ removeFirst 'g' l := by
  induction l with
  | nil => simp [removeFirst]
  | cons x xs ih =>
    rw [List.count_cons] at h
    by_cases hx : x = 'g'
    · subst hx
      simp only [removeFirst, if_pos rfl]
      have h0 : xs.count 'g' = 0 := by
        simp at h
        omega
      exact List.count_eq_zero.mp h0
    · simp only [removeFirst, if_neg hx, List.mem_cons, not_or]
      simp [Ne.symm hx] at h
      rw [if_neg hx] at h
      exact ⟨fun hgx => hx hgx.symm, ih (by omega)⟩

/-- C10: the `ok` helper is stateless and deterministic — it never mutates
the caller's regexp, its boolean result does not depend on the regexp's
`lastIndex` (so repeated calls with the same arguments agree), it returns
`false` on missing (`null`/`undefined`) and empty text, and on non-empty
text it is exactly the pure match-at-position-0 test of the pattern, even
when the regexp carries the `g` flag (a JS regexp holds each flag at most
once). -/
theorem claim_C10_ok_stateless :
    (∀ (re : JsRegExp) (t : Option String), (ok re t).2 = re) ∧
    (∀ (re : JsRegExp) (t : Option String) (li : Nat),
      (ok { re with lastIndex := li } t).1 = (ok re t).1) ∧
    (∀ re : JsRegExp, ok re none = (false, re)) ∧
    (∀ re : JsRegExp, ok re (some "") = (false, re)) ∧
    (∀ (re : JsRegExp) (t : String), t ≠ "" → re.flags.data.count 'g' ≤ 1 →
      (ok re (some t)).1 = (re.matchAt t 0).isSome) := by
  refine ⟨?_, ?_, fun re => rfl, fun re => rfl, ?_⟩
  · intro re t
    rcases t with _ | s
    · rfl
    · by_cases h : s = "" <;> simp [ok, h]
  · intro re t li
    rcases t with _ | s
    · rfl
    · by_cases h : s = "" <;> simp [ok, h]
  · intro re t ht hcount
    have hg : 'g' ∉ (stripGlobal re.flags).data := by
      simpa [stripGlobal] using count_removeFirst_notMem re.flags.data hcount
    simp [ok, ht, jsTest, hg]

/-- Witness for C10 at a global-flagged regexp with non-zero `lastIndex`
and a never-matching pattern. -/
theorem claim_C10_ok_stateless_witness :
    ("abc" ≠ "") ∧
    ((("g" : String).data.count 'g') ≤ 1) ∧
    (ok ⟨"x", "g", 3, fun _ _ => none⟩ (some "abc")).1 =
      (((⟨"x", "g", 3, fun _ _ => none⟩ : JsRegExp).matchAt "abc" 0)).isSome :=
  ⟨by decide, by decide,
   claim_C10_ok_stateless.2.2.2.2 ⟨"x", "g", 3, fun _ _ => none⟩ "abc" (by decide) (by decide)⟩

end PwAudit
